import Mathlib

/-
Shallow embedding of the gitlab2github migration tool
(src/gitlab2github/gitlab2github.py) and proofs about its
text transformer, label reconciler, issue/comment migrator and
retry wrapper.

Strings are modelled as Lean `String` (a structure over `List Char`),
which matches Python `str` viewed as a sequence of code points.
`str.lower()` is modelled on the ASCII range (`Char.toLower`), which is
exact for every string appearing in the repository and the claims.
-/

namespace Gitlab2Github

/-! ### Python string primitives used by the source -/

/-- Python whitespace class used by the regex space escape on `str`
input: tab through carriage return (9-13), space (32), the file/group/
record/unit separators (28-31), next line (133), and the Unicode
whitespace code points (no-break space 160, ogham 5760, the en/em spaces
8192-8202, line and paragraph separators 8232-8233, narrow no-break 8239,
medium mathematical 8287, ideographic 12288). -/
def pyIsSpace (c : Char) : Bool :=
  (9 ≤ c.toNat && c.toNat ≤ 13) || c.toNat = 32 ||
  (28 ≤ c.toNat && c.toNat ≤ 31) || c.toNat = 133 || c.toNat = 160 ||
  c.toNat = 5760 || (8192 ≤ c.toNat && c.toNat ≤ 8202) ||
  c.toNat = 8232 || c.toNat = 8233 || c.toNat = 8239 ||
  c.toNat = 8287 || c.toNat = 12288

/-- Python `str.lower()` on one character (ASCII model). -/
def pyToLower (c : Char) : Char := Char.toLower c

/-- Python `s.lower()` (line 166 and line 220 of the source): lower-case
each character. -/
def pyLowerStr (s : String) : String := ⟨s.data.map pyToLower⟩

/-- Source line 167, `color.replace("#", "")`: removing every occurrence
of the one-character pattern is dropping every such character. -/
def pyRemoveHash (s : String) : String := ⟨s.data.filter (fun c => !(c = '#'))⟩

/-- Source line 168, `description[:100]`: Python slices by code point, so
it is `List.take` on the character list. -/
def pyTake100 (s : String) : String := ⟨s.data.take 100⟩

/-! ### The uploads regex of line 14 and its `re.sub`

The pattern (`/uploads/` then one or more characters that are neither
whitespace nor a closing parenthesis) is compiled at line 14 and used by
`fix_upload_links` at lines 68-69.  `re.sub` scans left to right,
replaces each leftmost non-overlapping match and resumes after the end
of the match. -/

/-- The literal part of the pattern. -/
def uploadsLit : List Char := "/uploads/".data

/-- A character the pattern's character class accepts: anything that is
not whitespace and not a closing parenthesis. -/
def notStop (c : Char) : Bool := !(pyIsSpace c || c = ')')

/-- Helper: `dropPrefixChars p s = some r` iff `s = p ++ r`. -/
def dropPrefixChars : List Char → List Char → Option (List Char)
  | [], s => some s
  | _ :: _, [] => none
  | p :: ps, c :: cs => if c = p then dropPrefixChars ps cs else none

/-- Try the uploads pattern at the start of `s`: the literal `/uploads/`
followed by a maximal non-empty run of non-stop characters.  Returns the
matched substring and the remainder. -/
def matchUploadsAt (s : List Char) : Option (List Char × List Char) :=
  match dropPrefixChars uploadsLit s with
  | none => none
  | some rest =>
    let run := rest.takeWhile notStop
    if run.isEmpty then none
    else some (uploadsLit ++ run, rest.dropWhile notStop)

/-- One step of the left-to-right scan of `re.sub`: on a match, emit the
replacement `url ++ match` and resume after the match; otherwise move one
character right.  The fuel argument only serves termination; any
`fuel ≥ s.length` yields the same result because a match consumes at
least one character. -/
def subUploadsFuel (url : List Char) : Nat → List Char → List Char
  | 0, s => s
  | _ + 1, [] => []
  | fuel + 1, c :: cs =>
    match matchUploadsAt (c :: cs) with
    | some (m, rest) => url ++ m ++ subUploadsFuel url fuel rest
    | none => c :: subUploadsFuel url fuel cs

/-- The substitution of the uploads pattern by `url ++ match` on
character lists. -/
def subUploads (url s : List Char) : List Char := subUploadsFuel url s.length s

/-- Source lines 68-69, `fix_upload_links(text, url)`: substitute every
match of the uploads pattern by the base url followed by the match. -/
def fix_upload_links (text url : String) : String := ⟨subUploads url.data text.data⟩

/-- Holds iff the uploads pattern matches somewhere in `s`. -/
def hasUploadsMatch : List Char → Bool
  | [] => false
  | c :: cs => (matchUploadsAt (c :: cs)).isSome || hasUploadsMatch cs

/-! ### Mentions and footers (lines 72-104) -/

/-- A GitLab user as consumed by `fix_mentions`: the two dictionary keys
the source reads. -/
structure GlUser where
  username : String
  web_url : String
deriving DecidableEq

/-- Python `text.replace(old, new)` for a non-empty `old`: scan left to
right, replace each non-overlapping occurrence.  Fuel as in
`subUploadsFuel`. -/
def replaceFuel (old new : List Char) : Nat → List Char → List Char
  | 0, s => s
  | _ + 1, [] => []
  | fuel + 1, c :: cs =>
    match dropPrefixChars old (c :: cs) with
    | some rest => new ++ replaceFuel old new fuel rest
    | none => c :: replaceFuel old new fuel cs

/-- Python `text.replace(old, new)` on strings (for the non-empty
patterns the source uses). -/
def pyReplace (text old new : String) : String :=
  ⟨replaceFuel old.data new.data text.data.length text.data⟩

/-- Source lines 72-79, `fix_mentions(text, users)`: for each user in
order, replace every occurrence of their handle by a Markdown profile
link. -/
def fix_mentions (text : String) (users : List GlUser) : String :=
  users.foldl
    (fun t u => pyReplace t ("@" ++ u.username) ("[@" ++ u.username ++ "](" ++ u.web_url ++ ")"))
    text

/-- The provenance sentence built at line 83. -/
def issueFooterMessage (url : String) : String :=
  "<sub>You can find the original issue from GitLab [here](" ++ url ++ ").</sub>\n"

/-- Source lines 82-94, `add_issue_footer(description, url)`: the message
alone when the description is falsy (empty), otherwise description, a
blank line, a rule and the message. -/
def add_issue_footer (description url : String) : String :=
  if description = "" then issueFooterMessage url
  else description ++ "\n" ++ "\n" ++ "---\n" ++ issueFooterMessage url

/-- Source lines 97-104, `add_comment_footer(comment, url)`. -/
def add_comment_footer (comment url : String) : String :=
  comment ++ "\n" ++ "\n" ++ "---\n"
    ++ "<sub>You can find the comment from GitLab [here](" ++ url ++ ").</sub>\n"

/-! ### Label reconciliation (`move_labels`, lines 149-177)

The observable behaviour of `move_labels` is the sequence of
`create_github_label` calls it makes; we model it as the list of created
labels.  The GitLab label set is modelled as a list (its iteration order
does not matter for any per-label statement), the GitHub snapshot as the
list of destination label names. -/

/-- A GitLab label as read by `move_labels`: name, color, and optional
description. -/
structure GlLabel where
  name : String
  color : String
  description : Option String
deriving DecidableEq

/-- Arguments of one `create_github_label` call. -/
structure CreatedLabel where
  name : String
  description : String
  color : String
deriving DecidableEq

/-- Source line 156: the exclusion list is currently empty. -/
def excluded_labels : List String := []

/-- The marker label created at lines 173-177. -/
def markerLabel : CreatedLabel :=
  { name := "gitlab", description := "For issues moved from GitLab", color := "FC6D27" }

/-- Lines 166-170: the label created for a missing GitLab label — name
lower-cased, color with the hash characters removed, description cut at
100 characters (empty when the description is falsy). -/
def mkCreatedLabel (gl : GlLabel) : CreatedLabel :=
  { name := pyLowerStr gl.name
  , description := match gl.description with
      | none => ""
      | some d => if d = "" then "" else pyTake100 d
  , color := pyRemoveHash gl.color }

/-- Source lines 149-177, `move_labels`: for each GitLab label whose
lower-cased name is not literally among the GitHub label names (and whose
original name is not excluded), create it; afterwards create the marker
label unless a GitHub label is literally named "gitlab". -/
def move_labels (gl_labels : List GlLabel) (gh_labels : List String) : List CreatedLabel :=
  (gl_labels.filterMap (fun gl =>
     if gh_labels.contains (pyLowerStr gl.name) then none
     else if excluded_labels.contains gl.name then none
     else some (mkCreatedLabel gl)))
  ++ (if gh_labels.contains "gitlab" then [] else [markerLabel])

/-! ### Issue and comment migration (`move_comments` lines 180-196,
`move_issues` lines 199-227) -/

/-- A GitLab note (comment) as read by `move_comments`. -/
structure GlNote where
  id : Nat
  body : String
  confidential : Bool
  system : Bool
deriving DecidableEq

/-- A GitLab issue with the fields `move_issues` and `move_comments`
read. -/
structure GlIssue where
  iid : Nat
  title : String
  description : Option String
  labels : List String
  state : String
  confidential : Bool
  web_url : String
  participants : List GlUser
  notes : List GlNote
deriving DecidableEq

/-- The comment body built at lines 192-194 for one note. -/
def transformNote (gl_web_url : String) (issue : GlIssue) (note : GlNote) : String :=
  add_comment_footer
    (fix_mentions (fix_upload_links note.body gl_web_url) issue.participants)
    (issue.web_url ++ "#note_" ++ toString note.id)

/-- Source lines 180-196, `move_comments`: for each note in listing
order, skip it when confidential, skip it when system-generated,
otherwise create the transformed comment.  The result is the list of
created comment bodies. -/
def move_comments (gl_web_url : String) (issue : GlIssue) : List String :=
  issue.notes.filterMap (fun note =>
    if note.confidential then none
    else if note.system then none
    else some (transformNote gl_web_url issue note))

/-- One `create_github_issue` call (lines 215-221) together with the
follow-up actions on the created issue: `closed` records whether
`close_github_issue` was called (line 225), `comments` the comments
created on it (line 227).  `src_iid` records which source issue the call
migrates. -/
structure GhIssueCreated where
  src_iid : Nat
  title : String
  body : String
  labels : List String
  closed : Bool
  comments : List String
deriving DecidableEq

/-- Lines 210-227: the destination issue created for one non-confidential
GitLab issue. -/
def migrateIssue (gl_web_url : String) (gl : GlIssue) : GhIssueCreated :=
  { src_iid := gl.iid
  , title := gl.title
  , body := add_issue_footer
      (fix_mentions (fix_upload_links (gl.description.getD "") gl_web_url) gl.participants)
      gl.web_url
  , labels := gl.labels.map pyLowerStr ++ ["gitlab"]
  , closed := gl.state == "closed"
  , comments := move_comments gl_web_url gl }

/-- The sort key relation of line 202 (`key=attrgetter` on `iid`,
ascending). -/
def iidLe (a b : GlIssue) : Prop := a.iid ≤ b.iid

instance : DecidableRel iidLe := fun a b => Nat.decLe a.iid b.iid

instance : IsTotal GlIssue iidLe := ⟨fun a b => Nat.le_total a.iid b.iid⟩

instance : IsTrans GlIssue iidLe := ⟨fun _ _ _ h1 h2 => Nat.le_trans h1 h2⟩

/-- Line 202, `sorted(..., key=attrgetter(iid))`: Python `sorted` is a
stable ascending sort, so any stable sort — here insertion sort — is the
same function. -/
def sortByIid (issues : List GlIssue) : List GlIssue := List.insertionSort iidLe issues

/-- Source lines 199-227, `move_issues`: iterate the issues sorted by
`iid` ascending, skip confidential ones, and migrate the rest in order. -/
def move_issues (gl_web_url : String) (issues : List GlIssue) : List GhIssueCreated :=
  (sortByIid issues).filterMap (fun gl =>
    if gl.confidential then none else some (migrateIssue gl_web_url gl))

/-! ### The retry wrapper (`retry`, lines 33-65), bounded mode

With `forever=False` the loop runs while `attempt < times`; on an
exception it increments `attempt`, sleeps the current backoff, grows the
backoff by 300 seconds, and re-raises when `attempt == times`.  We model
the wrapped operation as a function from the attempt number (starting at
1) to an `Except` outcome, and record the full observable trace: the
result (`Except.ok none` is Python's implicit `return None` when the
loop is never entered), the number of calls made, and the backoff sleeps
performed in order.  The structural recursion is on
`remaining = times - attempt`, which is positive exactly when the loop
condition `attempt < times` holds. -/

/-- Observable trace of one invocation of a `retry`-wrapped operation. -/
structure RetryTrace (E A : Type) where
  result : Except E (Option A)
  calls : Nat
  sleeps : List Nat

/-- The `while` loop of lines 42-58 with `forever=False`, recursing on
`remaining = times - attempt`. -/
def retryLoop {E A : Type} (f : Nat → Except E A) :
    Nat → Nat → Nat → RetryTrace E A
  | 0, _, _ => ⟨Except.ok none, 0, []⟩
  | r + 1, attempt, timeout =>
    match f attempt with
    | Except.ok a => ⟨Except.ok (some a), 1, []⟩
    | Except.error e =>
      if r = 0 then ⟨Except.error e, 1, [timeout]⟩
      else
        let t := retryLoop f r (attempt + 1) (timeout + 5 * 60)
        ⟨t.result, t.calls + 1, timeout :: t.sleeps⟩

/-- Source lines 33-65, `retry` with `forever=False`: `attempt` starts at
1 and the first backoff is `delay`. -/
def retry_bounded {E A : Type} (times delay : Nat) (f : Nat → Except E A) : RetryTrace E A :=
  retryLoop f (times - 1) 1 delay

/-! ### Concrete fixtures used by counterexamples and witnesses -/

/-- Modelled from the spec claim about label colors: strip a leading hash
character only, leaving the rest of the color string unchanged.  This is
the transform the claim asserts; the source removes every hash. -/
def stripLeadingHash (s : String) : String :=
  if s.data.head? = some '#' then ⟨s.data.tail⟩ else s

/-- An operation that raises on its first two calls and succeeds on the
third. -/
def fTwoFailsThenOk : Nat → Except String Nat :=
  fun n => if n = 1 then Except.error "e1" else if n = 2 then Except.error "e2" else Except.ok 42

/-- An operation that raises on every call, with a distinct error per
attempt. -/
def fAlwaysFails : Nat → Except String Nat := fun n => Except.error (toString n)

/-- A minimal non-confidential issue with a given sequence number. -/
def exIssue (n : Nat) : GlIssue :=
  { iid := n, title := "t", description := none, labels := [], state := "opened"
  , confidential := false, web_url := "w", participants := [], notes := [] }

/-- A confidential issue carrying a non-confidential, non-system
comment. -/
def confIssueEx : GlIssue :=
  { iid := 1, title := "t", description := none, labels := [], state := "opened"
  , confidential := true, web_url := "w", participants := []
  , notes := [{ id := 5, body := "hello", confidential := false, system := false }] }

/-! ### Lemmas about the uploads substitution -/

theorem dropPrefixChars_eq_append :
    ∀ {p s r : List Char}, dropPrefixChars p s = some r → s = p ++ r := by
  intro p
  induction p with
  | nil =>
    intro s r h
    simp only [dropPrefixChars, Option.some.injEq] at h
    simp [h]
  | cons a ps ih =>
    intro s r h
    cases s with
    | nil => simp [dropPrefixChars] at h
    | cons c cs =>
      simp only [dropPrefixChars] at h
      split at h
      · rename_i hc
        subst hc
        simpa using ih h
      · exact absurd h (by simp)

theorem uploadsLit_notStop : ∀ c ∈ uploadsLit, notStop c = true := by decide

theorem head?_dropWhile_eq_some {α : Type} {p : α → Bool} {l : List α} {a : α}
    (h : (l.dropWhile p).head? = some a) : p a = false := by
  have hm := List.head?_dropWhile_not p l
  rw [h] at hm
  exact hm

theorem matchUploadsAt_spec {s m rest : List Char}
    (h : matchUploadsAt s = some (m, rest)) :
    (∃ tail, m = uploadsLit ++ tail)
    ∧ (∀ c ∈ m, notStop c = true)
    ∧ s = m ++ rest
    ∧ (∀ c, rest.head? = some c → notStop c = false) := by
  unfold matchUploadsAt at h
  cases hd : dropPrefixChars uploadsLit s with
  | none => rw [hd] at h; exact absurd h (by simp)
  | some r0 =>
    rw [hd] at h
    simp only at h
    split at h
    · exact absurd h (by simp)
    · simp only [Option.some.injEq, Prod.mk.injEq] at h
      obtain ⟨hm, hrest⟩ := h
      refine ⟨⟨r0.takeWhile notStop, hm.symm⟩, ?_, ?_, ?_⟩
      · intro c hc
        rw [← hm] at hc
        rcases List.mem_append.mp hc with h1 | h1
        · exact uploadsLit_notStop c h1
        · exact List.mem_takeWhile_imp h1
      · rw [dropPrefixChars_eq_append hd, ← hm, ← hrest, List.append_assoc,
          List.takeWhile_append_dropWhile]
      · intro c hc
        rw [← hrest] at hc
        exact head?_dropWhile_eq_some hc

theorem matchUploadsAt_length {s m rest : List Char}
    (h : matchUploadsAt s = some (m, rest)) : rest.length < s.length := by
  obtain ⟨⟨tail, hm⟩, _, hs, _⟩ := matchUploadsAt_spec h
  have h9 : uploadsLit.length = 9 := rfl
  rw [hs, List.length_append, hm, List.length_append, h9]
  omega

theorem subUploadsFuel_congr {url : List Char} :
    ∀ (f1 : Nat) (s : List Char) (f2 : Nat), s.length ≤ f1 → s.length ≤ f2 →
      subUploadsFuel url f1 s = subUploadsFuel url f2 s := by
  intro f1
  induction f1 with
  | zero =>
    intro s f2 h1 _
    have hnil : s = [] := List.eq_nil_of_length_eq_zero (Nat.le_zero.mp h1)
    subst hnil
    cases f2 <;> rfl
  | succ f ih =>
    intro s f2 h1 h2
    cases s with
    | nil => cases f2 <;> rfl
    | cons c cs =>
      cases f2 with
      | zero => simp at h2
      | succ f2 =>
        simp only [subUploadsFuel]
        cases hm : matchUploadsAt (c :: cs) with
        | some p =>
          obtain ⟨m, rest⟩ := p
          have hlen := matchUploadsAt_length hm
          simp only [List.length_cons] at h1 h2 hlen
          dsimp only
          rw [ih rest f2 (by omega) (by omega)]
        | none =>
          simp only [List.length_cons] at h1 h2
          dsimp only
          rw [ih cs f2 (by omega) (by omega)]

theorem subUploads_match_step {url s m rest : List Char}
    (h : matchUploadsAt s = some (m, rest)) :
    subUploads url s = url ++ m ++ subUploads url rest := by
  cases s with
  | nil =>
    rw [show matchUploadsAt [] = none from rfl] at h
    exact absurd h (by simp)
  | cons c cs =>
    have hlen := matchUploadsAt_length h
    simp only [List.length_cons] at hlen
    show subUploadsFuel url (c :: cs).length (c :: cs) = _
    simp only [List.length_cons, subUploadsFuel, h]
    rw [subUploadsFuel_congr cs.length rest rest.length (by omega) (Nat.le_refl _)]
    simp [subUploads, List.append_assoc]

theorem subUploads_no_match {url : List Char} :
    ∀ {s : List Char}, hasUploadsMatch s = false → subUploads url s = s := by
  intro s
  induction s with
  | nil => intro _; rfl
  | cons c cs ih =>
    intro h
    simp only [hasUploadsMatch, Bool.or_eq_false_iff] at h
    obtain ⟨h1, h2⟩ := h
    have hm : matchUploadsAt (c :: cs) = none := by
      cases hx : matchUploadsAt (c :: cs) with
      | none => rfl
      | some p => rw [hx] at h1; simp at h1
    show subUploadsFuel url (c :: cs).length (c :: cs) = c :: cs
    simp only [List.length_cons, subUploadsFuel, hm]
    exact congrArg (c :: ·) (ih h2)

theorem fix_upload_links_no_match {text url : String}
    (h : hasUploadsMatch text.data = false) : fix_upload_links text url = text := by
  obtain ⟨d⟩ := text
  exact congrArg String.mk (subUploads_no_match h)

/-! ### Lemmas about label reconciliation and issue migration -/

theorem mem_move_labels_of_missing {gls : List GlLabel} {ghs : List String} {gl : GlLabel}
    (hmem : gl ∈ gls) (hmiss : ghs.contains (pyLowerStr gl.name) = false) :
    mkCreatedLabel gl ∈ move_labels gls ghs := by
  unfold move_labels
  apply List.mem_append_left
  apply List.mem_filterMap.mpr
  refine ⟨gl, hmem, ?_⟩
  rw [hmiss]
  rfl

theorem move_labels_all_present {gls : List GlLabel} {ghs : List String}
    (h : ∀ gl ∈ gls, ghs.contains (pyLowerStr gl.name) = true) :
    move_labels gls ghs = if ghs.contains "gitlab" then [] else [markerLabel] := by
  have h0 : (gls.filterMap (fun gl =>
      if ghs.contains (pyLowerStr gl.name) then none
      else if excluded_labels.contains gl.name then none
      else some (mkCreatedLabel gl))) = [] :=
    List.filterMap_eq_nil_iff.mpr (fun gl hgl => by rw [h gl hgl]; rfl)
  unfold move_labels
  rw [h0, List.nil_append]

theorem filterMap_skip_eq {α β : Type} (p : α → Bool) (g : α → β) :
    ∀ (l : List α),
      (l.filterMap (fun x => if p x then none else some (g x)))
        = (l.filter (fun x => !p x)).map g := by
  intro l
  induction l with
  | nil => rfl
  | cons a l ih =>
    by_cases h : p a
    · simp [List.filterMap_cons, List.filter_cons, h, ih]
    · simp [List.filterMap_cons, List.filter_cons, h, ih]

theorem move_issues_eq (url : String) (issues : List GlIssue) :
    move_issues url issues
      = ((sortByIid issues).filter (fun gl => !gl.confidential)).map (migrateIssue url) :=
  filterMap_skip_eq (fun gl : GlIssue => gl.confidential) (migrateIssue url) (sortByIid issues)

theorem move_comments_eq (url : String) (issue : GlIssue) :
    move_comments url issue
      = (issue.notes.filter (fun n => !n.confidential && !n.system)).map
          (transformNote url issue) := by
  unfold move_comments
  generalize issue.notes = ns
  induction ns with
  | nil => rfl
  | cons n ns ih =>
    by_cases hc : n.confidential
    · simp [List.filterMap_cons, List.filter_cons, hc, ih]
    · by_cases hs : n.system
      · simp [List.filterMap_cons, List.filter_cons, hc, hs, ih]
      · simp [List.filterMap_cons, List.filter_cons, hc, hs, ih]

theorem sortByIid_perm (issues : List GlIssue) : (sortByIid issues).Perm issues :=
  List.perm_insertionSort iidLe issues

theorem sortByIid_sorted (issues : List GlIssue) : List.Sorted iidLe (sortByIid issues) :=
  List.sorted_insertionSort iidLe issues

/-! ### The claims -/

/-- C1: the bounded retry loop has an off-by-one attempt budget, so the
claimed behaviour does not hold.  At the claim's inputs: with times=3 and
an operation that raises on its first two calls and succeeds on the
third, the wrapper never makes the third call — it performs two calls
and two backoff sleeps (the 1200-second delay, then 1500) and re-raises
the second error instead of returning the success result; with times=2
and an operation raising on every call, it performs a single call and
re-raises the first error, not the second failure's error. -/
theorem C1_retry_bounded_off_by_one :
    retry_bounded 3 1200 fTwoFailsThenOk
      = ⟨Except.error "e2", 2, [1200, 1500]⟩
    ∧ retry_bounded 2 1200 fAlwaysFails = ⟨Except.error "1", 1, [1200]⟩ :=
  ⟨rfl, rfl⟩

/-- C2 counterexample: applying the link rewrite twice to the spec's own
link-rewrite example differs from applying it once — the absolutized
link still contains a substring matched by the uploads pattern, so the
second application prefixes the base url again. -/
theorem C2_not_idempotent_counterexample :
    ¬ (fix_upload_links
        (fix_upload_links "see /uploads/1/2/f.png for details" "https://gl/proj")
        "https://gl/proj"
      = fix_upload_links "see /uploads/1/2/f.png for details" "https://gl/proj") := by
  decide

/-- C2 (amended): the link rewrite is idempotent exactly on texts the
uploads pattern does not match, where a single application is already
the identity; it is not idempotent in general. -/
theorem C2_idempotent_on_unmatched :
    ∀ (text url : String), hasUploadsMatch text.data = false →
      fix_upload_links text url = text
      ∧ fix_upload_links (fix_upload_links text url) url = fix_upload_links text url := by
  intro text url h
  have h1 : fix_upload_links text url = text := fix_upload_links_no_match h
  exact ⟨h1, by rw [h1]; exact h1⟩

theorem C2_idempotent_on_unmatched_witness :
    fix_upload_links "no attachments here" "https://gl/proj" = "no attachments here"
    ∧ fix_upload_links (fix_upload_links "no attachments here" "https://gl/proj")
        "https://gl/proj"
      = fix_upload_links "no attachments here" "https://gl/proj" :=
  C2_idempotent_on_unmatched "no attachments here" "https://gl/proj" (by decide)

/-- C3 counterexample: a destination label that matches a source label up
to case but not literally does not suppress creation — with destination
name "BUG" and source name "Bug" (equal after lower-casing), the label
is still created. -/
theorem C3_case_counterexample :
    pyLowerStr "BUG" = pyLowerStr "Bug"
    ∧ mkCreatedLabel ⟨"Bug", "d9534f", none⟩
        ∈ move_labels [⟨"Bug", "d9534f", none⟩] ["BUG"] := by
  decide

/-- C3 (amended): a source label is created iff its lower-cased name is
not literally among the destination label names — the comparison
lower-cases only the source side.  A destination name equal to the
lower-cased source name suppresses creation; if every source label is
suppressed only the marker label (when absent) is created; on the spec's
example (destination "bug", sources "Bug" and "Feature") exactly
"feature" and the marker are created. -/
theorem C3_label_reconciliation :
    ∀ (gls : List GlLabel) (ghs : List String) (gl : GlLabel),
      (gl ∈ gls → ghs.contains (pyLowerStr gl.name) = false →
        mkCreatedLabel gl ∈ move_labels gls ghs)
      ∧ ((∀ g ∈ gls, ghs.contains (pyLowerStr g.name) = true) →
        move_labels gls ghs = if ghs.contains "gitlab" then [] else [markerLabel])
      ∧ move_labels [⟨"Bug", "d9534f", none⟩, ⟨"Feature", "0075ca", none⟩] ["bug"]
          = [⟨"feature", "", "0075ca"⟩, markerLabel] := by
  intro gls ghs gl
  exact ⟨fun h1 h2 => mem_move_labels_of_missing h1 h2,
    move_labels_all_present, by decide⟩

theorem C3_label_reconciliation_witness :
    mkCreatedLabel ⟨"Feature", "0075ca", none⟩
      ∈ move_labels [⟨"Feature", "0075ca", none⟩] ["bug"] :=
  (C3_label_reconciliation [⟨"Feature", "0075ca", none⟩] ["bug"]
    ⟨"Feature", "0075ca", none⟩).1 (by decide) (by decide)

/-- C4 counterexample: for a source color with an interior hash, the
created label's color removes every hash character, not only a leading
one, so it differs from the claim's leading-strip transform. -/
theorem C4_color_counterexample :
    mkCreatedLabel ⟨"c", "#F#F", none⟩ ∈ move_labels [⟨"c", "#F#F", none⟩] []
    ∧ (mkCreatedLabel ⟨"c", "#F#F", none⟩).color = "FF"
    ∧ stripLeadingHash "#F#F" = "F#F"
    ∧ ¬ (mkCreatedLabel ⟨"c", "#F#F", none⟩).color = stripLeadingHash "#F#F" := by
  decide

/-- C4 (amended): every missing source label is created with name equal
to the source name lower-cased, color equal to the source color with
every hash character removed (in particular hash-free), and description
the first 100 characters of the source description (empty when the
description is absent), hence never longer than 100 characters. -/
theorem C4_created_label_fields :
    ∀ (gls : List GlLabel) (ghs : List String) (gl : GlLabel),
      gl ∈ gls → ghs.contains (pyLowerStr gl.name) = false →
      ∃ c ∈ move_labels gls ghs,
        c.name = pyLowerStr gl.name
        ∧ c.color = pyRemoveHash gl.color
        ∧ (∀ ch ∈ c.color.data, ¬ ch = '#')
        ∧ c.description = (match gl.description with | none => "" | some d => pyTake100 d)
        ∧ c.description.length ≤ 100 := by
  intro gls ghs gl h1 h2
  refine ⟨mkCreatedLabel gl, mem_move_labels_of_missing h1 h2, rfl, rfl, ?_, ?_, ?_⟩
  · intro ch hch
    have hf := List.of_mem_filter hch
    simpa using hf
  · simp only [mkCreatedLabel]
    cases gl.description with
    | none => rfl
    | some d =>
      dsimp only
      by_cases he : d = ""
      · subst he
        rw [if_pos rfl]
        rfl
      · rw [if_neg he]
  · simp only [mkCreatedLabel]
    cases gl.description with
    | none => decide
    | some d =>
      dsimp only
      by_cases he : d = ""
      · subst he
        rw [if_pos rfl]
        decide
      · rw [if_neg he]
        simp only [pyTake100, String.length_mk, List.length_take]
        omega

theorem C4_created_label_fields_witness :
    ∃ c ∈ move_labels [⟨"Feature", "#0075ca", some "docs"⟩] [],
      c.name = pyLowerStr "Feature"
      ∧ c.color = pyRemoveHash "#0075ca"
      ∧ (∀ ch ∈ c.color.data, ¬ ch = '#')
      ∧ c.description
          = (match (some "docs" : Option String) with | none => "" | some d => pyTake100 d)
      ∧ c.description.length ≤ 100 :=
  C4_created_label_fields [⟨"Feature", "#0075ca", some "docs"⟩] []
    ⟨"Feature", "#0075ca", some "docs"⟩ (by decide) (by decide)

/-- C5: the rewrite prefixes each matched maximal uploads path with the
base url.  The spec's example rewrites as stated; every match consists of
the literal uploads prefix followed by a tail, contains no whitespace
and no closing parenthesis, splits its input as match plus remainder,
and the remainder's first character (if any) is one the character class
rejects (maximality); the substitution inserts the base url exactly in
front of each match and continues after it. -/
theorem C5_uploads_match_properties :
    (fix_upload_links "see /uploads/1/2/f.png for details" "https://gl/proj"
      = "see https://gl/proj/uploads/1/2/f.png for details")
    ∧ (∀ s m rest, matchUploadsAt s = some (m, rest) →
        (∃ tail, m = uploadsLit ++ tail)
        ∧ (∀ c ∈ m, notStop c = true)
        ∧ s = m ++ rest
        ∧ (∀ c, rest.head? = some c → notStop c = false))
    ∧ (∀ (url s m rest : List Char), matchUploadsAt s = some (m, rest) →
        subUploads url s = url ++ m ++ subUploads url rest) :=
  ⟨by decide, fun _ _ _ h => matchUploadsAt_spec h, fun _ _ _ _ h => subUploads_match_step h⟩

theorem C5_uploads_match_properties_witness :
    subUploads "U".data "/uploads/ab y".data
      = "U".data ++ "/uploads/ab".data ++ subUploads "U".data " y".data :=
  C5_uploads_match_properties.2.2 "U".data "/uploads/ab y".data
    "/uploads/ab".data " y".data (by decide)

/-- C6: the issue footer is the provenance sentence alone when the
description is empty, and otherwise the description followed by two
newlines, a horizontal-rule line and the provenance sentence linking the
issue url. -/
theorem C6_add_issue_footer_shape :
    ∀ (description url : String),
      (description = "" → add_issue_footer description url = issueFooterMessage url)
      ∧ (¬ description = "" →
          add_issue_footer description url
            = description ++ "\n\n" ++ "---\n" ++ issueFooterMessage url) := by
  intro d u
  constructor
  · intro h
    rw [add_issue_footer, if_pos h]
  · intro h
    rw [add_issue_footer, if_neg h]
    apply String.ext
    simp [String.data_append]

theorem C6_add_issue_footer_shape_witness :
    add_issue_footer "" "https://gl/i/1" = issueFooterMessage "https://gl/i/1"
    ∧ add_issue_footer "body" "https://gl/i/1"
        = "body" ++ "\n\n" ++ "---\n" ++ issueFooterMessage "https://gl/i/1" :=
  ⟨(C6_add_issue_footer_shape "" "https://gl/i/1").1 rfl,
    (C6_add_issue_footer_shape "body" "https://gl/i/1").2 (by decide)⟩

/-- C7: every migrated non-confidential issue is created with label list
equal to the lower-cased source labels followed by the marker label
"gitlab", and every created issue carries the marker label. -/
theorem C7_issue_labels :
    ∀ (url : String) (issues : List GlIssue),
      (∀ gl ∈ issues, gl.confidential = false →
        migrateIssue url gl ∈ move_issues url issues
        ∧ (migrateIssue url gl).labels = gl.labels.map pyLowerStr ++ ["gitlab"])
      ∧ (∀ c ∈ move_issues url issues, "gitlab" ∈ c.labels) := by
  intro url issues
  constructor
  · intro gl hmem hconf
    refine ⟨?_, rfl⟩
    rw [move_issues_eq]
    apply List.mem_map_of_mem
    rw [List.mem_filter]
    exact ⟨(sortByIid_perm issues).mem_iff.mpr hmem, by simp [hconf]⟩
  · intro c hc
    rw [move_issues_eq] at hc
    obtain ⟨gl, _, rfl⟩ := List.mem_map.mp hc
    exact List.mem_append_right _ (List.mem_singleton.mpr rfl)

theorem C7_issue_labels_witness :
    migrateIssue "u" (exIssue 1) ∈ move_issues "u" [exIssue 1]
    ∧ (migrateIssue "u" (exIssue 1)).labels
        = (exIssue 1).labels.map pyLowerStr ++ ["gitlab"] :=
  (C7_issue_labels "u" [exIssue 1]).1 (exIssue 1) (by decide) (by decide)

/-- C8: issues are migrated in ascending order of their sequence number
regardless of listing order — the migrated sequence numbers are sorted
ascending and are a permutation of the non-confidential input issues'
numbers; listing order [3,1,2] migrates as 1,2,3. -/
theorem C8_issue_order :
    ∀ (url : String) (issues : List GlIssue),
      List.Sorted (fun a b => a ≤ b) ((move_issues url issues).map (fun c => c.src_iid))
      ∧ ((move_issues url issues).map (fun c => c.src_iid)).Perm
          ((issues.filter (fun i => !i.confidential)).map (fun i => i.iid))
      ∧ (move_issues "u" [exIssue 3, exIssue 1, exIssue 2]).map (fun c => c.src_iid)
          = [1, 2, 3] := by
  intro url issues
  refine ⟨?_, ?_, by decide⟩
  · rw [move_issues_eq, List.map_map]
    exact List.pairwise_map.mpr
      (List.Pairwise.sublist (List.filter_sublist _) (sortByIid_sorted issues))
  · rw [move_issues_eq, List.map_map]
    exact (((sortByIid_perm issues).filter (fun gl => !gl.confidential)).map (fun i => i.iid))

/-- C9: a confidential source issue produces zero destination issues and
zero destination comments even when it carries non-confidential
comments, and on each migrated issue exactly the comments that are
neither confidential nor system-generated are created. -/
theorem C9_confidentiality_filter :
    ∀ (url : String) (issues : List GlIssue),
      (move_issues url issues).length = (issues.filter (fun i => !i.confidential)).length
      ∧ ((move_issues url issues).map (fun c => c.comments.length)).sum
          = ((issues.filter (fun i => !i.confidential)).map
              (fun i => (i.notes.filter (fun n => !n.confidential && !n.system)).length)).sum
      ∧ move_issues url [confIssueEx] = [] := by
  intro url issues
  refine ⟨?_, ?_, rfl⟩
  · rw [move_issues_eq, List.length_map]
    exact ((sortByIid_perm issues).filter (fun i => !i.confidential)).length_eq
  · rw [move_issues_eq, List.map_map]
    have hfun : ∀ gl : GlIssue,
        ((fun c : GhIssueCreated => c.comments.length) ∘ migrateIssue url) gl
          = (gl.notes.filter (fun n => !n.confidential && !n.system)).length := by
      intro gl
      show (move_comments url gl).length = _
      rw [move_comments_eq, List.length_map]
    rw [List.map_congr_left (fun gl _ => hfun gl)]
    exact (((sortByIid_perm issues).filter (fun i => !i.confidential)).map
      (fun i => (i.notes.filter (fun n => !n.confidential && !n.system)).length)).sum_eq

/-- C10: with forever=False and times at most 1 (the defaults are
times=1, forever=False), the loop condition fails immediately: the
wrapped operation is never called, no sleep happens, and the wrapper
returns None without raising. -/
theorem C10_retry_default_skips_call :
    ∀ (E A : Type) (times delay : Nat) (f : Nat → Except E A),
      times ≤ 1 →
        retry_bounded times delay f = ⟨Except.ok none, 0, []⟩ := by
  intro E A times delay f h
  unfold retry_bounded
  rw [Nat.sub_eq_zero_of_le h]
  rfl

theorem C10_retry_default_skips_call_witness :
    retry_bounded 1 0 (fun _ => (Except.error "boom" : Except String Nat))
      = ⟨Except.ok none, 0, []⟩ :=
  C10_retry_default_skips_call String Nat 1 0
    (fun _ => Except.error "boom") (by decide)

end Gitlab2Github
